import Mathlib

/-!
Shallow embedding of the dual-tier cache engine in `src/lib/cache.ts`
(classes `CacheEngine` and `CacheService`).

The local (in-memory) tier is modelled as an explicit state machine:
the JavaScript `Map` becomes an association list preserving insertion
order (JS `Map.set` on an existing key keeps its position, otherwise
appends), and every public operation takes the current clock value
`now` (the value `Date.now()` would return) as an explicit argument.
The remote (Redis) tier is modelled for the error-propagation claims by
an oracle of fallible primitive calls; each engine method's `try/catch`
is translated into explicit `Except` case analysis.
-/

namespace CacheModel

/-- A user session record (`CacheUserSession` in cache.ts).  The `data`
payload is opaque to the engine and is modelled by a `Nat` tag; `userId`
is modelled as a string. -/
structure CacheUserSession where
  userId : String
  data : Nat
  createdAt : Nat
  lastActive : Nat
deriving DecidableEq, Repr

/-- Universe of JavaScript values stored in the cache, as far as the
engine inspects them: numbers (for counters), strings (lock tokens),
the JS `null` value, session records, and opaque payloads. -/
inductive CVal where
  | num : Int → CVal
  | str : String → CVal
  | jnull : CVal
  | sess : CacheUserSession → CVal
  | raw : Nat → CVal
deriving DecidableEq, Repr

/-- JavaScript truthiness of a stored value (`0`, the empty string and
`null` are falsy; objects are truthy). -/
def CVal.truthy : CVal → Bool
  | .num n => n != 0
  | .str t => t != ""
  | .jnull => false
  | .sess _ => true
  | .raw _ => true

/-- What a TS function returning `T | null` hands back when the value is
the JS `null`: indistinguishable from a miss.  `none` models JS `null`. -/
def jsRet (v : CVal) : Option CVal :=
  if v = CVal.jnull then none else some v

/-- Truthiness of a `T | null` result (`null` is falsy). -/
def optTruthy : Option CVal → Bool
  | none => false
  | some v => v.truthy

/-- One memory-tier entry (`InMemoryCacheEntry` in cache.ts).
`expiration` is an absolute millisecond timestamp; `none` models the TS
field being `undefined`. -/
structure InMemoryCacheEntry where
  value : CVal
  expiration : Option Nat
  lastAccessed : Nat
deriving DecidableEq, Repr

/-- The metrics record (`CachePerformanceMetrics` in cache.ts). -/
structure CachePerformanceMetrics where
  successful : Nat
  failed : Nat
  writes : Nat
  removals : Nat
  currentSize : Int
  efficiency : Rat
deriving DecidableEq, Repr

/-- The configuration fields the local tier consults
(`CacheStorageConfig` in cache.ts; defaults `entryLifespan = 3600`,
`memoryTierLimit = 10000`). -/
structure CacheStorageConfig where
  entryLifespan : Nat
  memoryTierLimit : Nat
deriving DecidableEq, Repr

/-- The in-process state of a `CacheEngine` whose remote tier is
inactive: the `memoryCache` map (as an insertion-ordered association
list), the metrics, and the configuration. -/
structure EngineState where
  store : List (String × InMemoryCacheEntry)
  metrics : CachePerformanceMetrics
  config : CacheStorageConfig
deriving DecidableEq, Repr

/-- `Map.get`: first (unique) binding for a key. -/
def mapGet (store : List (String × InMemoryCacheEntry)) (k : String) :
    Option InMemoryCacheEntry :=
  match store with
  | [] => none
  | (k0, e0) :: rest => if k0 = k then some e0 else mapGet rest k

/-- `Map.set`: replace in place when the key exists (keeping its
position, as JS `Map` does), otherwise append. -/
def mapSet (store : List (String × InMemoryCacheEntry)) (k : String)
    (e : InMemoryCacheEntry) : List (String × InMemoryCacheEntry) :=
  match store with
  | [] => [(k, e)]
  | (k0, e0) :: rest =>
    if k0 = k then (k0, e) :: rest else (k0, e0) :: mapSet rest k e

/-- `Map.delete`: remove the (unique) binding for a key. -/
def mapDelete (store : List (String × InMemoryCacheEntry)) (k : String) :
    List (String × InMemoryCacheEntry) :=
  match store with
  | [] => []
  | (k0, e0) :: rest =>
    if k0 = k then rest else (k0, e0) :: mapDelete rest k

/-- Keys of a store are pairwise distinct (always true of a JS `Map`). -/
abbrev WFStore (store : List (String × InMemoryCacheEntry)) : Prop :=
  (store.map Prod.fst).Nodup

/-- The boolean test `entry.expiration && Date.now() > entry.expiration`
from `get`/`has` in cache.ts, including JS truthiness: an `expiration`
of `0` is falsy and therefore never counts as expired. -/
def entryExpiredTruthy (e : InMemoryCacheEntry) (now : Nat) : Bool :=
  match e.expiration with
  | some t => decide (t ≠ 0 ∧ t < now)
  | none => false

/-- The candidate scan of `CacheEngine.evict` (cache.ts lines 532-541):
fold over the map in iteration order, keeping the first key whose
`lastAccessed` is strictly below the running minimum, which starts at
`Date.now()` with candidate key `''`. -/
def evictCandidate (now : Nat) (store : List (String × InMemoryCacheEntry)) :
    String :=
  (store.foldl
    (fun (acc : String × Nat) kv =>
      if kv.2.lastAccessed < acc.2 then (kv.1, kv.2.lastAccessed) else acc)
    ("", now)).1

/-- `CacheEngine.evict` (cache.ts lines 532-546): delete the candidate
key, guarded by `if (candidateKey)` — i.e. only when the candidate
string is nonempty. -/
def evict (now : Nat) (store : List (String × InMemoryCacheEntry)) :
    List (String × InMemoryCacheEntry) :=
  let c := evictCandidate now store
  if c = "" then store else mapDelete store c

/-- Expiration timestamp computed by the local branch of
`CacheEngine.set` (cache.ts lines 184-189): an explicit lifespan wins;
otherwise the configured `entryLifespan` when positive; otherwise no
expiration. -/
def computeExpiration (cfg : CacheStorageConfig) (lifespan : Option Nat)
    (now : Nat) : Option Nat :=
  match lifespan with
  | some l => some (now + l * 1000)
  | none =>
    if cfg.entryLifespan > 0 then some (now + cfg.entryLifespan * 1000)
    else none

/-- Local branch of `CacheEngine.set` (cache.ts lines 178-199): evict
when at or above capacity, then insert the entry with `lastAccessed =
now`, and count a write.  Always returns `true`. -/
def setLocal (key : String) (v : CVal) (lifespan : Option Nat) (now : Nat)
    (s : EngineState) : Bool × EngineState :=
  let store0 :=
    if s.store.length ≥ s.config.memoryTierLimit then evict now s.store
    else s.store
  let e : InMemoryCacheEntry :=
    { value := v, expiration := computeExpiration s.config lifespan now,
      lastAccessed := now }
  (true,
    { s with store := mapSet store0 key e,
             metrics := { s.metrics with writes := s.metrics.writes + 1 } })

/-- Local branch of `CacheEngine.get` (cache.ts lines 221-239): an
expired entry is deleted and counted as a failed read; a live entry has
its `lastAccessed` refreshed and is counted as a successful read; an
absent key is a failed read. -/
def getLocal (key : String) (now : Nat) (s : EngineState) :
    Option CVal × EngineState :=
  match mapGet s.store key with
  | some e =>
    if entryExpiredTruthy e now then
      (none,
        { s with store := mapDelete s.store key,
                 metrics := { s.metrics with failed := s.metrics.failed + 1 } })
    else
      (jsRet e.value,
        { s with store := mapSet s.store key { e with lastAccessed := now },
                 metrics :=
                   { s.metrics with successful := s.metrics.successful + 1 } })
  | none =>
    (none, { s with metrics := { s.metrics with failed := s.metrics.failed + 1 } })

/-- Local branch of `CacheEngine.has` (cache.ts lines 258-264): purge an
expired entry and report `false`; otherwise report presence, without
touching `lastAccessed`. -/
def hasLocal (key : String) (now : Nat) (s : EngineState) :
    Bool × EngineState :=
  match mapGet s.store key with
  | some e =>
    if entryExpiredTruthy e now then
      (false, { s with store := mapDelete s.store key })
    else (true, s)
  | none => (false, s)

/-- Local branch of `CacheEngine.delete` (cache.ts lines 285-289):
remove the key, counting a removal exactly when something was present. -/
def deleteLocal (key : String) (s : EngineState) : Bool × EngineState :=
  let present := (mapGet s.store key).isSome
  (present,
    { s with store := mapDelete s.store key,
             metrics :=
               if present then
                 { s.metrics with removals := s.metrics.removals + 1 }
               else s.metrics })

/-- The value `typeof entry.value === 'number' ? entry.value : 0`. -/
def numOrZero : CVal → Int
  | .num n => n
  | _ => 0

/-- The guard `!entry.expiration || Date.now() <= entry.expiration` of
`CacheEngine.increment` (cache.ts line 313), including JS truthiness of
`expiration` and the inclusive comparison. -/
def incrCountable (e : InMemoryCacheEntry) (now : Nat) : Bool :=
  match e.expiration with
  | none => true
  | some t => decide (t = 0 ∨ now ≤ t)

/-- The current numeric value `CacheEngine.increment` reads for a key on
the local tier (cache.ts lines 310-315). -/
def localCurrentVal (store : List (String × InMemoryCacheEntry))
    (key : String) (now : Nat) : Int :=
  match mapGet store key with
  | some e => if incrCountable e now then numOrZero e.value else 0
  | none => 0

/-- Local branch of `CacheEngine.increment` (cache.ts lines 309-319):
read-modify-write through `set` with no explicit lifespan. -/
def incrementLocal (key : String) (step : Int) (now : Nat)
    (s : EngineState) : Int × EngineState :=
  let updatedVal := localCurrentVal s.store key now + step
  (updatedVal, (setLocal key (CVal.num updatedVal) none now s).2)

/-- `CacheEngine.getOrSet` on the local tier (cache.ts lines 374-383).
The supplier is modelled by the value it would produce; the last
component counts how many times the supplier was invoked. -/
def getOrSetLocal (key : String) (genVal : CVal) (lifespan : Option Nat)
    (now : Nat) (s : EngineState) : Option CVal × EngineState × Nat :=
  let r := getLocal key now s
  match r.1 with
  | some v => (some v, r.2, 0)
  | none => (jsRet genVal, (setLocal key genVal lifespan now r.2).2, 1)

/-- Result record of `rateLimit` (`CacheTrafficControlResult`). -/
structure CacheTrafficControlResult where
  permitted : Bool
  quota : Int
  windowReset : Nat
  requestCount : Int
deriving DecidableEq, Repr

/-- The window index `Math.floor(timestamp / (windowSeconds * 1000))`
computed by `CacheEngine.rateLimit` (cache.ts line 391). -/
def windowIndex (windowSeconds now : Nat) : Nat :=
  now / (windowSeconds * 1000)

/-- The counter key `traffic:<key>:<window>` of `CacheEngine.rateLimit`
(cache.ts line 392). -/
def trafficKey (key : String) (windowSeconds now : Nat) : String :=
  "traffic:" ++ key ++ ":" ++ toString (windowIndex windowSeconds now)

/-- `CacheEngine.rateLimit` on the local tier (cache.ts lines 388-409):
fixed-window counter at `traffic:<key>:<windowIndex>`, with the
window's TTL written only when this call created the window. -/
def rateLimitLocal (key : String) (maxRequests : Int) (windowSeconds now : Nat)
    (s : EngineState) : CacheTrafficControlResult × EngineState :=
  let window := windowIndex windowSeconds now
  let controlKey := trafficKey key windowSeconds now
  let r := incrementLocal controlKey 1 now s
  let s2 :=
    if r.1 = 1 then
      (setLocal controlKey (CVal.num r.1) (some windowSeconds) now r.2).2
    else r.2
  ({ permitted := decide (r.1 ≤ maxRequests),
     quota := max 0 (maxRequests - r.1),
     windowReset := (window + 1) * windowSeconds * 1000,
     requestCount := r.1 }, s2)

/-- Local branch of `CacheEngine.getTTL` (cache.ts lines 493-499):
`-2` when absent, `-1` when the entry has no (truthy) expiration, else
`floor(max(0, expiration - now) / 1000)`.  The function does not mutate
the store (the source never deletes here), which the type records. -/
def getTTLLocal (key : String) (now : Nat) (s : EngineState) : Int :=
  match mapGet s.store key with
  | none => -2
  | some e =>
    match e.expiration with
    | none => -1
    | some t => if t = 0 then -1 else Int.ofNat ((t - now) / 1000)

/-- Local branch of `CacheEngine.setTTL` (cache.ts lines 515-521). -/
def setTTLLocal (key : String) (seconds now : Nat) (s : EngineState) :
    Bool × EngineState :=
  match mapGet s.store key with
  | some e =>
    (true,
      { s with store :=
          mapSet s.store key { e with expiration := some (now + seconds * 1000) } })
  | none => (false, s)

/-- `CacheEngine.getMetrics` (cache.ts lines 154-159) with the remote
tier inactive: recompute `efficiency` and `currentSize` and return the
updated record. -/
def getMetricsLocal (s : EngineState) : CachePerformanceMetrics :=
  let totalOps := s.metrics.successful + s.metrics.failed
  { s.metrics with
    efficiency :=
      if totalOps > 0 then (s.metrics.successful : Rat) / (totalOps : Rat)
      else 0,
    currentSize := Int.ofNat s.store.length }

/-- `CacheEngine.clear` on the local tier (cache.ts lines 462-479). -/
def clearLocal (s : EngineState) : Bool × EngineState :=
  (true, { s with store := [], metrics := ⟨0, 0, 0, 0, 0, 0⟩ })

/-- Key under which a session is stored (`user_session:<sessionId>`). -/
def sessionKey (sessionId : String) : String :=
  "user_session:" ++ sessionId

/-- `CacheEngine.createSession` on the local tier (cache.ts lines
424-438): store the fresh session with lifespan `lifespan ?? 86400`. -/
def createSessionLocal (sessionId userId : String) (data : Nat)
    (lifespan : Option Nat) (now : Nat) (s : EngineState) :
    Bool × EngineState :=
  setLocal (sessionKey sessionId)
    (CVal.sess { userId := userId, data := data, createdAt := now,
                 lastActive := now })
    (some (lifespan.getD 86400)) now s

/-- `CacheEngine.getSession` on the local tier (cache.ts lines 443-450):
on a hit the session's `lastActive` is set to `now` and the record is
written back through `set` WITHOUT an explicit lifespan.  Session keys
are only ever written by `createSession`/`getSession`, so the stored
value at a session key is a session record; other values at a session
key are outside the modelled fragment and mapped to `none`. -/
def getSessionLocal (sessionId : String) (now : Nat) (s : EngineState) :
    Option CacheUserSession × EngineState :=
  let r := getLocal (sessionKey sessionId) now s
  match r.1 with
  | some (CVal.sess u) =>
    let u1 := { u with lastActive := now }
    (some u1, (setLocal (sessionKey sessionId) (CVal.sess u1) none now r.2).2)
  | _ => (none, r.2)

/-- `CacheEngine.deleteSession` on the local tier (cache.ts lines
455-457). -/
def deleteSessionLocal (sessionId : String) (s : EngineState) :
    Bool × EngineState :=
  deleteLocal (sessionKey sessionId) s

/-- `CacheService.acquireLock` (cache.ts lines 635-650) on the local
tier: poll `get`; when the stored value is not truthy, write the token
with the lease duration and report success; otherwise sleep 10 ms and
retry until `now - startTime < timeout` fails.  The structurally
decreasing `fuel` bounds the number of loop iterations (the real loop
is bounded in time by `timeout`). -/
def acquireLockLoop (lockKey token : String) (duration timeout startTime : Nat) :
    Nat → Nat → EngineState → Bool × EngineState
  | 0, _, s => (false, s)
  | fuel + 1, now, s =>
    if now - startTime < timeout then
      let r := getLocal lockKey now s
      if optTruthy r.1 then
        acquireLockLoop lockKey token duration timeout startTime fuel (now + 10) r.2
      else
        let w := setLocal lockKey (CVal.str token) (some duration) now r.2
        if w.1 then (true, w.2)
        else acquireLockLoop lockKey token duration timeout startTime fuel (now + 10) w.2
    else (false, s)

/-- `CacheService.releaseLock` (cache.ts lines 655-657): an
unconditional `delete` of the lock key; no token is taken and none is
checked. -/
def releaseLockLocal (lockKey : String) (s : EngineState) :
    Bool × EngineState :=
  deleteLocal lockKey s

/-!
Remote-tier model.  Each primitive Redis call the engine performs is a
field of `RemoteOracle`, returning `Except String _` so that a call can
raise a transport error; `encodeJ`/`decodeJ` model `JSON.stringify`/
`JSON.parse`, which can also throw.  Each engine method's `try { ... }
catch { ... }` is translated branch by branch: an `Except.error` flowing
out of a definition models an exception propagating to the caller, and
metric mutations that happened before a throw are preserved, exactly as
JavaScript field mutation would be. -/

/-- Fallible remote primitives and (de)serialization used by the engine
when the primary tier is active. -/
structure RemoteOracle where
  getR : String → Except String (Option String)
  setR : String → String → Except String Unit
  expireR : String → Nat → Except String Unit
  delR : String → Except String Nat
  existsR : String → Except String Bool
  incrR : String → Except String Int
  incrByR : String → Int → Except String Int
  ttlR : String → Except String Int
  flushR : Except String Unit
  encodeJ : CVal → Except String String
  decodeJ : String → Except String CVal

/-- Remote branch of `CacheEngine.get` (cache.ts lines 215-244):
`if (raw)` is JS truthiness (null or empty string falls through to the
failed-read path); `successful` is incremented before `JSON.parse`, so
a decode failure lands in the catch with the increment already done. -/
def getRemote (o : RemoteOracle) (key : String) (m : CachePerformanceMetrics) :
    Except String (Option CVal × CachePerformanceMetrics) :=
  match o.getR key with
  | .error _ => .ok (none, { m with failed := m.failed + 1 })
  | .ok none => .ok (none, { m with failed := m.failed + 1 })
  | .ok (some raw) =>
    if raw = "" then .ok (none, { m with failed := m.failed + 1 })
    else
      let m1 := { m with successful := m.successful + 1 }
      match o.decodeJ raw with
      | .ok v => .ok (jsRet v, m1)
      | .error _ => .ok (none, { m1 with failed := m1.failed + 1 })

/-- Remote branch of `CacheEngine.set` (cache.ts lines 164-203):
serialize, write, set the expiration when `ttl > 0`, count a write;
any failure is caught and reported as `false`. -/
def setRemote (o : RemoteOracle) (cfg : CacheStorageConfig) (key : String)
    (v : CVal) (lifespan : Option Nat) (m : CachePerformanceMetrics) :
    Except String (Bool × CachePerformanceMetrics) :=
  match o.encodeJ v with
  | .error _ => .ok (false, m)
  | .ok enc =>
    match o.setR key enc with
    | .error _ => .ok (false, m)
    | .ok _ =>
      let ttl := lifespan.getD cfg.entryLifespan
      if ttl > 0 then
        match o.expireR key ttl with
        | .error _ => .ok (false, m)
        | .ok _ => .ok (true, { m with writes := m.writes + 1 })
      else .ok (true, { m with writes := m.writes + 1 })

/-- Remote branch of `CacheEngine.has` (cache.ts lines 250-270). -/
def hasRemote (o : RemoteOracle) (key : String) (m : CachePerformanceMetrics) :
    Except String (Bool × CachePerformanceMetrics) :=
  match o.existsR key with
  | .ok b => .ok (b, m)
  | .error _ => .ok (false, m)

/-- Remote branch of `CacheEngine.delete` (cache.ts lines 281-293):
`removals` is incremented unconditionally after a successful `DEL`,
even when the reply is `0` and the result is `false`. -/
def deleteRemote (o : RemoteOracle) (key : String)
    (m : CachePerformanceMetrics) :
    Except String (Bool × CachePerformanceMetrics) :=
  match o.delR key with
  | .ok n => .ok (decide (n > 0), { m with removals := m.removals + 1 })
  | .error _ => .ok (false, m)

/-- Remote branch of `CacheEngine.increment` (cache.ts lines 299-325):
the catch block rethrows, so a failing `INCR`/`INCRBY` propagates to the
caller. -/
def incrementRemote (o : RemoteOracle) (key : String) (step : Int)
    (m : CachePerformanceMetrics) :
    Except String (Int × CachePerformanceMetrics) :=
  match (if step = 1 then o.incrR key else o.incrByR key step) with
  | .ok n => .ok (n, m)
  | .error e => .error e

/-- `CacheEngine.getOrSet` with the remote tier active (cache.ts lines
374-383); the supplier is modelled by the value it would produce, and
the last component counts its invocations. -/
def getOrSetRemote (o : RemoteOracle) (cfg : CacheStorageConfig)
    (key : String) (genVal : CVal) (lifespan : Option Nat)
    (m : CachePerformanceMetrics) :
    Except String (Option CVal × CachePerformanceMetrics × Nat) :=
  match getRemote o key m with
  | .error e => .error e
  | .ok (some v, m1) => .ok (some v, m1, 0)
  | .ok (none, m1) =>
    match setRemote o cfg key genVal lifespan m1 with
    | .error e => .error e
    | .ok (_, m2) => .ok (jsRet genVal, m2, 1)

/-- The fan-out inside `CacheEngine.setBatch` (cache.ts line 332). -/
def setBatchGo (o : RemoteOracle) (cfg : CacheStorageConfig) :
    List (String × CVal) → Option Nat → CachePerformanceMetrics →
    Except String (Bool × CachePerformanceMetrics)
  | [], _, m => .ok (true, m)
  | (k, v) :: rest, lifespan, m =>
    match setRemote o cfg k v lifespan m with
    | .error e => .error e
    | .ok (b, m1) =>
      match setBatchGo o cfg rest lifespan m1 with
      | .error e => .error e
      | .ok (b2, m2) => .ok (b && b2, m2)

/-- `CacheEngine.setBatch` with the remote tier active (cache.ts lines
330-339): all the individual writes, conjoined, under a catch that
reports `false`. -/
def setBatchRemote (o : RemoteOracle) (cfg : CacheStorageConfig)
    (entries : List (String × CVal)) (lifespan : Option Nat)
    (m : CachePerformanceMetrics) :
    Except String (Bool × CachePerformanceMetrics) :=
  match setBatchGo o cfg entries lifespan m with
  | .ok r => .ok r
  | .error _ => .ok (false, m)

/-- The fan-out inside `CacheEngine.getBatch` (cache.ts lines 346-358). -/
def getBatchGo (o : RemoteOracle) :
    List String → CachePerformanceMetrics →
    Except String (List (String × Option CVal) × CachePerformanceMetrics)
  | [], m => .ok ([], m)
  | k :: rest, m =>
    match getRemote o k m with
    | .error e => .error e
    | .ok (v, m1) =>
      match getBatchGo o rest m1 with
      | .error e => .error e
      | .ok (l, m2) => .ok ((k, v) :: l, m2)

/-- `CacheEngine.getBatch` with the remote tier active (cache.ts lines
344-369): every requested key is mapped to its value or `none`; the
catch maps every key to `none`. -/
def getBatchRemote (o : RemoteOracle) (keys : List String)
    (m : CachePerformanceMetrics) :
    Except String (List (String × Option CVal) × CachePerformanceMetrics) :=
  match getBatchGo o keys m with
  | .ok r => .ok r
  | .error _ => .ok (keys.map (fun k => (k, none)), m)

/-- `CacheEngine.rateLimit` with the remote tier active (cache.ts lines
388-419): a failure anywhere inside the try lands in the catch, which
fails open with `permitted = true` and `requestCount = 1`. -/
def rateLimitRemote (o : RemoteOracle) (cfg : CacheStorageConfig)
    (key : String) (maxRequests : Int) (windowSeconds now : Nat)
    (m : CachePerformanceMetrics) :
    Except String (CacheTrafficControlResult × CachePerformanceMetrics) :=
  let window := windowIndex windowSeconds now
  let controlKey := trafficKey key windowSeconds now
  let failOpen : CacheTrafficControlResult :=
    { permitted := true, quota := maxRequests - 1,
      windowReset := now + windowSeconds * 1000, requestCount := 1 }
  match incrementRemote o controlKey 1 m with
  | .error _ => .ok (failOpen, m)
  | .ok (current, m1) =>
    let step2 :=
      if current = 1 then
        setRemote o cfg controlKey (CVal.num current) (some windowSeconds) m1
      else .ok (true, m1)
    match step2 with
    | .error _ => .ok (failOpen, m1)
    | .ok (_, m2) =>
      .ok ({ permitted := decide (current ≤ maxRequests),
             quota := max 0 (maxRequests - current),
             windowReset := (window + 1) * windowSeconds * 1000,
             requestCount := current }, m2)

/-- Remote branch of `CacheEngine.getTTL` (cache.ts lines 489-505). -/
def getTTLRemote (o : RemoteOracle) (key : String)
    (m : CachePerformanceMetrics) :
    Except String (Int × CachePerformanceMetrics) :=
  match o.ttlR key with
  | .ok n => .ok (n, m)
  | .error _ => .ok (-2, m)

/-- Remote branch of `CacheEngine.setTTL` (cache.ts lines 510-527). -/
def setTTLRemote (o : RemoteOracle) (key : String) (seconds : Nat)
    (m : CachePerformanceMetrics) :
    Except String (Bool × CachePerformanceMetrics) :=
  match o.expireR key seconds with
  | .ok _ => .ok (true, m)
  | .error _ => .ok (false, m)

/-- Remote branch of `CacheEngine.clear` (cache.ts lines 462-484):
flush, then reset the metrics; a failure is caught before the reset. -/
def clearRemote (o : RemoteOracle) (m : CachePerformanceMetrics) :
    Except String (Bool × CachePerformanceMetrics) :=
  match o.flushR with
  | .ok _ => .ok (true, ⟨0, 0, 0, 0, 0, 0⟩)
  | .error _ => .ok (false, m)

/-- `CacheEngine.createSession` with the remote tier active (cache.ts
lines 424-438). -/
def createSessionRemote (o : RemoteOracle) (cfg : CacheStorageConfig)
    (sessionId userId : String) (data : Nat) (lifespan : Option Nat)
    (now : Nat) (m : CachePerformanceMetrics) :
    Except String (Bool × CachePerformanceMetrics) :=
  setRemote o cfg (sessionKey sessionId)
    (CVal.sess { userId := userId, data := data, createdAt := now,
                 lastActive := now })
    (some (lifespan.getD 86400)) m

/-- `CacheEngine.getSession` with the remote tier active (cache.ts
lines 443-450); see `getSessionLocal` for the modelled fragment. -/
def getSessionRemote (o : RemoteOracle) (cfg : CacheStorageConfig)
    (sessionId : String) (now : Nat) (m : CachePerformanceMetrics) :
    Except String (Option CacheUserSession × CachePerformanceMetrics) :=
  match getRemote o (sessionKey sessionId) m with
  | .error e => .error e
  | .ok (some (CVal.sess u), m1) =>
    let u1 := { u with lastActive := now }
    match setRemote o cfg (sessionKey sessionId) (CVal.sess u1) none m1 with
    | .error e => .error e
    | .ok (_, m2) => .ok (some u1, m2)
  | .ok (_, m1) => .ok (none, m1)

/-- `CacheEngine.deleteSession` with the remote tier active (cache.ts
lines 455-457). -/
def deleteSessionRemote (o : RemoteOracle) (sessionId : String)
    (m : CachePerformanceMetrics) :
    Except String (Bool × CachePerformanceMetrics) :=
  deleteRemote o (sessionKey sessionId) m

/-- A remote oracle whose every primitive raises a transport error,
used as a concrete witness input. -/
def failOracle : RemoteOracle where
  getR := fun _ => .error "boom"
  setR := fun _ _ => .error "boom"
  expireR := fun _ _ => .error "boom"
  delR := fun _ => .error "boom"
  existsR := fun _ => .error "boom"
  incrR := fun _ => .error "boom"
  incrByR := fun _ _ => .error "boom"
  ttlR := fun _ => .error "boom"
  flushR := .error "boom"
  encodeJ := fun _ => .error "boom"
  decodeJ := fun _ => .error "boom"

/-- A remote oracle whose primitives all succeed with inert defaults;
`delR` replies `0` (key absent).  Used as a concrete witness input. -/
def okOracle : RemoteOracle where
  getR := fun _ => .ok none
  setR := fun _ _ => .ok ()
  expireR := fun _ _ => .ok ()
  delR := fun _ => .ok 0
  existsR := fun _ => .ok false
  incrR := fun _ => .ok 1
  incrByR := fun _ n => .ok n
  ttlR := fun _ => .ok (-2)
  flushR := .ok ()
  encodeJ := fun _ => .ok "x"
  decodeJ := fun _ => .ok (CVal.raw 0)

/-! Basic lemmas about the association-list map. -/

theorem mapGet_eq_none_of_not_mem (st : List (String × InMemoryCacheEntry))
    (k : String) (h : k ∉ st.map Prod.fst) : mapGet st k = none := by
  induction st with
  | nil => rfl
  | cons kv rest ih =>
    obtain ⟨k0, e0⟩ := kv
    simp only [List.map_cons, List.mem_cons] at h
    push_neg at h
    simp only [mapGet]
    rw [if_neg fun hk => h.1 hk.symm]
    exact ih h.2

theorem mapGet_mapDelete_self (st : List (String × InMemoryCacheEntry))
    (k : String) (hwf : WFStore st) : mapGet (mapDelete st k) k = none := by
  induction st with
  | nil => rfl
  | cons kv rest ih =>
    obtain ⟨k0, e0⟩ := kv
    simp only [WFStore, List.map_cons, List.nodup_cons] at hwf
    by_cases hk : k0 = k
    · simp only [mapDelete, if_pos hk]
      exact mapGet_eq_none_of_not_mem rest k (hk ▸ hwf.1)
    · simp only [mapDelete, if_neg hk, mapGet]
      exact ih hwf.2

theorem mapGet_mapSet_self (st : List (String × InMemoryCacheEntry))
    (k : String) (e : InMemoryCacheEntry) : mapGet (mapSet st k e) k = some e := by
  induction st with
  | nil => simp [mapSet, mapGet]
  | cons kv rest ih =>
    obtain ⟨k0, e0⟩ := kv
    by_cases hk : k0 = k
    · simp [mapSet, mapGet, if_pos hk]
    · simp only [mapSet, if_neg hk, mapGet]
      exact ih

/-! Totality of the remote-path operations: each one ends in `.ok`
whatever the oracle does, because every branch of the translated
`try/catch` produces a result.  (`increment` is the exception; see the
C4 theorem.) -/

theorem getRemote_ok (o : RemoteOracle) (k : String)
    (m : CachePerformanceMetrics) : ∃ r, getRemote o k m = Except.ok r := by
  rcases hg : o.getR k with e | ro
  · simp only [getRemote, hg]; exact ⟨_, rfl⟩
  · cases ro with
    | none => simp only [getRemote, hg]; exact ⟨_, rfl⟩
    | some raw =>
      by_cases h : raw = ""
      · simp only [getRemote, hg, if_pos h]; exact ⟨_, rfl⟩
      · rcases hd : o.decodeJ raw with e | v
        · simp only [getRemote, hg, if_neg h, hd]; exact ⟨_, rfl⟩
        · simp only [getRemote, hg, if_neg h, hd]; exact ⟨_, rfl⟩

theorem setRemote_ok (o : RemoteOracle) (cfg : CacheStorageConfig)
    (k : String) (v : CVal) (l : Option Nat) (m : CachePerformanceMetrics) :
    ∃ r, setRemote o cfg k v l m = Except.ok r := by
  rcases he : o.encodeJ v with e | enc
  · simp only [setRemote, he]; exact ⟨_, rfl⟩
  · rcases hs : o.setR k enc with e | u
    · simp only [setRemote, he, hs]; exact ⟨_, rfl⟩
    · by_cases ht : l.getD cfg.entryLifespan > 0
      · rcases hx : o.expireR k (l.getD cfg.entryLifespan) with e | u2
        · simp only [setRemote, he, hs, if_pos ht, hx]; exact ⟨_, rfl⟩
        · simp only [setRemote, he, hs, if_pos ht, hx]; exact ⟨_, rfl⟩
      · simp only [setRemote, he, hs, if_neg ht]; exact ⟨_, rfl⟩

theorem hasRemote_ok (o : RemoteOracle) (k : String)
    (m : CachePerformanceMetrics) : ∃ r, hasRemote o k m = Except.ok r := by
  rcases hx : o.existsR k with e | b
  · simp only [hasRemote, hx]; exact ⟨_, rfl⟩
  · simp only [hasRemote, hx]; exact ⟨_, rfl⟩

theorem deleteRemote_ok (o : RemoteOracle) (k : String)
    (m : CachePerformanceMetrics) : ∃ r, deleteRemote o k m = Except.ok r := by
  rcases hx : o.delR k with e | n
  · simp only [deleteRemote, hx]; exact ⟨_, rfl⟩
  · simp only [deleteRemote, hx]; exact ⟨_, rfl⟩

theorem getOrSetRemote_ok (o : RemoteOracle) (cfg : CacheStorageConfig)
    (k : String) (g : CVal) (l : Option Nat) (m : CachePerformanceMetrics) :
    ∃ r, getOrSetRemote o cfg k g l m = Except.ok r := by
  obtain ⟨⟨ov, m1⟩, h1⟩ := getRemote_ok o k m
  cases ov with
  | some v => simp only [getOrSetRemote, h1]; exact ⟨_, rfl⟩
  | none =>
    obtain ⟨⟨b, m2⟩, h2⟩ := setRemote_ok o cfg k g l m1
    simp only [getOrSetRemote, h1, h2]; exact ⟨_, rfl⟩

theorem setBatchRemote_ok (o : RemoteOracle) (cfg : CacheStorageConfig)
    (entries : List (String × CVal)) (l : Option Nat)
    (m : CachePerformanceMetrics) :
    ∃ r, setBatchRemote o cfg entries l m = Except.ok r := by
  rcases h : setBatchGo o cfg entries l m with e | r
  · simp only [setBatchRemote, h]; exact ⟨_, rfl⟩
  · simp only [setBatchRemote, h]; exact ⟨_, rfl⟩

theorem getBatchRemote_ok (o : RemoteOracle) (keys : List String)
    (m : CachePerformanceMetrics) :
    ∃ r, getBatchRemote o keys m = Except.ok r := by
  rcases h : getBatchGo o keys m with e | r
  · simp only [getBatchRemote, h]; exact ⟨_, rfl⟩
  · simp only [getBatchRemote, h]; exact ⟨_, rfl⟩

theorem rateLimitRemote_ok (o : RemoteOracle) (cfg : CacheStorageConfig)
    (k : String) (mr : Int) (ws now : Nat) (m : CachePerformanceMetrics) :
    ∃ r, rateLimitRemote o cfg k mr ws now m = Except.ok r := by
  rcases hi : incrementRemote o (trafficKey k ws now) 1 m with e | p
  · simp only [rateLimitRemote, hi]; exact ⟨_, rfl⟩
  · rcases p with ⟨current, m1⟩
    by_cases hc : current = 1
    · obtain ⟨⟨b, m2⟩, h2⟩ :=
        setRemote_ok o cfg (trafficKey k ws now) (CVal.num current)
          (some ws) m1
      simp only [rateLimitRemote, hi, if_pos hc, h2]; exact ⟨_, rfl⟩
    · simp only [rateLimitRemote, hi, if_neg hc]; exact ⟨_, rfl⟩

theorem getTTLRemote_ok (o : RemoteOracle) (k : String)
    (m : CachePerformanceMetrics) : ∃ r, getTTLRemote o k m = Except.ok r := by
  rcases hx : o.ttlR k with e | n
  · simp only [getTTLRemote, hx]; exact ⟨_, rfl⟩
  · simp only [getTTLRemote, hx]; exact ⟨_, rfl⟩

theorem setTTLRemote_ok (o : RemoteOracle) (k : String) (seconds : Nat)
    (m : CachePerformanceMetrics) :
    ∃ r, setTTLRemote o k seconds m = Except.ok r := by
  rcases hx : o.expireR k seconds with e | u
  · simp only [setTTLRemote, hx]; exact ⟨_, rfl⟩
  · simp only [setTTLRemote, hx]; exact ⟨_, rfl⟩

theorem clearRemote_ok (o : RemoteOracle) (m : CachePerformanceMetrics) :
    ∃ r, clearRemote o m = Except.ok r := by
  rcases hx : o.flushR with e | u
  · simp only [clearRemote, hx]; exact ⟨_, rfl⟩
  · simp only [clearRemote, hx]; exact ⟨_, rfl⟩

theorem getSessionRemote_ok (o : RemoteOracle) (cfg : CacheStorageConfig)
    (sid : String) (now : Nat) (m : CachePerformanceMetrics) :
    ∃ r, getSessionRemote o cfg sid now m = Except.ok r := by
  obtain ⟨⟨ov, m1⟩, h1⟩ := getRemote_ok o (sessionKey sid) m
  cases ov with
  | none => simp only [getSessionRemote, h1]; exact ⟨_, rfl⟩
  | some v =>
    cases v with
    | sess u =>
      obtain ⟨⟨b, m2⟩, h2⟩ :=
        setRemote_ok o cfg (sessionKey sid)
          (CVal.sess { u with lastActive := now }) none m1
      simp only [getSessionRemote, h1, h2]; exact ⟨_, rfl⟩
    | num n => simp only [getSessionRemote, h1]; exact ⟨_, rfl⟩
    | str t => simp only [getSessionRemote, h1]; exact ⟨_, rfl⟩
    | jnull => simp only [getSessionRemote, h1]; exact ⟨_, rfl⟩
    | raw n => simp only [getSessionRemote, h1]; exact ⟨_, rfl⟩

/-! Claim theorems. -/

/-- C1: the claim says the Local Store never exceeds `memoryTierLimit`
and that a `set` at capacity always evicts the entry with the smallest
`lastAccessed`.  The code violates this: `evict` reports its candidate
through the string `''` and guards the deletion with `if (candidateKey)`,
so when the least-recently-accessed entry's key IS the empty string the
guard reads it as "no candidate" and deletes nothing, after which the
insertion pushes the store to `memoryTierLimit + 1` entries.  This
theorem evaluates the model at such a failing input: capacity 1, an
entry under key `""` (the LRU entry), and a second insert. -/
theorem localStore_exceeds_capacity_on_empty_string_key :
    let s0 : EngineState := ⟨[], ⟨0, 0, 0, 0, 0, 0⟩, ⟨3600, 1⟩⟩
    let s1 := (setLocal "" (CVal.raw 0) none 1000 s0).2
    let s2 := (setLocal "k" (CVal.raw 1) none 2000 s1).2
    s1.store.length = 1 ∧
    s2.store.length = 2 ∧
    s2.config.memoryTierLimit = 1 ∧
    s2.store.length > s2.config.memoryTierLimit ∧
    mapGet s2.store "" = some ⟨CVal.raw 0, some 3601000, 1000⟩ := by
  refine ⟨rfl, rfl, rfl, by decide, rfl⟩

/-- C3: a local-tier entry whose (truthy) expiration lies strictly in
the past is reported as a miss by `get`, which also purges it (so a
following `has` reports `false`), and is never reported as a hit by
`has` either. -/
theorem get_expired_entry_misses_and_purges (s : EngineState) (key : String)
    (e : InMemoryCacheEntry) (t now : Nat) (hwf : WFStore s.store)
    (hget : mapGet s.store key = some e) (hexp : e.expiration = some t)
    (hpos : 0 < t) (hpast : t < now) :
    (getLocal key now s).1 = none ∧
    (getLocal key now s).2.metrics.failed = s.metrics.failed + 1 ∧
    mapGet (getLocal key now s).2.store key = none ∧
    (hasLocal key now (getLocal key now s).2).1 = false ∧
    (hasLocal key now s).1 = false := by
  have hexpB : entryExpiredTruthy e now = true := by
    unfold entryExpiredTruthy
    rw [hexp]
    simp only [decide_eq_true_eq]
    exact ⟨by omega, hpast⟩
  have hgl : getLocal key now s =
      (none,
        { s with store := mapDelete s.store key,
                 metrics := { s.metrics with failed := s.metrics.failed + 1 } }) := by
    simp only [getLocal, hget, hexpB, if_true]
  have hpurged : mapGet (mapDelete s.store key) key = none :=
    mapGet_mapDelete_self s.store key hwf
  refine ⟨by rw [hgl], by rw [hgl], ?_, ?_, ?_⟩
  · rw [hgl]; exact hpurged
  · rw [hgl]
    simp only [hasLocal, hpurged]
  · simp only [hasLocal, hget, hexpB, if_true]

/-- Witness for C3 at a concrete input: key `"k"`, expiration 100,
clock 200. -/
theorem get_expired_entry_misses_and_purges_witness :
    let s : EngineState :=
      ⟨[("k", ⟨CVal.raw 5, some 100, 50⟩)], ⟨0, 0, 0, 0, 0, 0⟩, ⟨3600, 10000⟩⟩
    (getLocal "k" 200 s).1 = none ∧
    (getLocal "k" 200 s).2.metrics.failed = s.metrics.failed + 1 ∧
    mapGet (getLocal "k" 200 s).2.store "k" = none ∧
    (hasLocal "k" 200 (getLocal "k" 200 s).2).1 = false ∧
    (hasLocal "k" 200 s).1 = false :=
  get_expired_entry_misses_and_purges
    ⟨[("k", ⟨CVal.raw 5, some 100, 50⟩)], ⟨0, 0, 0, 0, 0, 0⟩, ⟨3600, 10000⟩⟩
    "k" ⟨CVal.raw 5, some 100, 50⟩ 100 200 (by decide) rfl rfl
    (by decide) (by decide)

/-- C8: `getMetrics().efficiency` is the ratio of successful reads to
all reads once at least one read has been counted, and `0` when no read
has been counted, for every engine state (hence for every interleaving
of `get` calls). -/
theorem getMetrics_efficiency_ratio (s : EngineState) :
    (0 < s.metrics.successful + s.metrics.failed →
      (getMetricsLocal s).efficiency =
        (s.metrics.successful : Rat) /
          ((s.metrics.successful + s.metrics.failed : Nat) : Rat)) ∧
    (s.metrics.successful = 0 ∧ s.metrics.failed = 0 →
      (getMetricsLocal s).efficiency = 0) := by
  constructor
  · intro h
    unfold getMetricsLocal
    simp only
    rw [if_pos h]
  · rintro ⟨h1, h2⟩
    unfold getMetricsLocal
    simp only
    rw [if_neg (by omega)]

/-- Witness for C8: three successful and one failed read give
efficiency `3 / 4`, and the zero state gives `0`. -/
theorem getMetrics_efficiency_ratio_witness :
    (getMetricsLocal ⟨[], ⟨3, 1, 0, 0, 0, 0⟩, ⟨3600, 10000⟩⟩).efficiency =
      ((3 : Nat) : Rat) / (((3 + 1 : Nat)) : Rat) ∧
    (getMetricsLocal ⟨[], ⟨0, 0, 0, 0, 0, 0⟩, ⟨3600, 10000⟩⟩).efficiency = 0 :=
  ⟨(getMetrics_efficiency_ratio ⟨[], ⟨3, 1, 0, 0, 0, 0⟩, ⟨3600, 10000⟩⟩).1
      (by decide),
   (getMetrics_efficiency_ratio ⟨[], ⟨0, 0, 0, 0, 0, 0⟩, ⟨3600, 10000⟩⟩).2
      ⟨rfl, rfl⟩⟩

/-- C10: `getTTL` on a local entry whose (truthy) expiration is already
past returns `0` — not the absent sentinel `-2` — and, since the source
never mutates the store in `getTTL` (reflected in the type of
`getTTLLocal`, which returns no state), the expired entry stays put,
even though `get` on the same key reports a miss and purges it and
`has` reports `false`. -/
theorem getTTL_expired_entry_returns_zero (s : EngineState) (key : String)
    (e : InMemoryCacheEntry) (t now : Nat) (hwf : WFStore s.store)
    (hget : mapGet s.store key = some e) (hexp : e.expiration = some t)
    (hpos : 0 < t) (hpast : t < now) :
    getTTLLocal key now s = 0 ∧
    getTTLLocal key now s ≠ -2 ∧
    (getLocal key now s).1 = none ∧
    mapGet (getLocal key now s).2.store key = none ∧
    (hasLocal key now s).1 = false := by
  have hexpB : entryExpiredTruthy e now = true := by
    unfold entryExpiredTruthy
    rw [hexp]
    simp only [decide_eq_true_eq]
    exact ⟨by omega, hpast⟩
  have httl : getTTLLocal key now s = 0 := by
    simp only [getTTLLocal, hget, hexp]
    rw [if_neg (by omega)]
    rw [Nat.sub_eq_zero_of_le (le_of_lt hpast)]
    rfl
  have hgl : getLocal key now s =
      (none,
        { s with store := mapDelete s.store key,
                 metrics := { s.metrics with failed := s.metrics.failed + 1 } }) := by
    simp only [getLocal, hget, hexpB, if_true]
  refine ⟨httl, by rw [httl]; decide, by rw [hgl], ?_, ?_⟩
  · rw [hgl]; exact mapGet_mapDelete_self s.store key hwf
  · simp only [hasLocal, hget, hexpB, if_true]

/-- C4: with the remote tier active, every public Cache Engine
operation returns a normal result for every oracle behaviour — every
transport or serialization failure is absorbed by the operation's
catch — with the single exception of `increment`, whose catch rethrows,
so the underlying failure propagates (shown for both the `INCR` and the
`INCRBY` path).  The local-tier counterparts (`setLocal`, `getLocal`,
…) are pure functions of the state and raise nothing by construction. -/
theorem engine_public_ops_total (o : RemoteOracle) (cfg : CacheStorageConfig)
    (k sid uid : String) (v g : CVal) (l : Option Nat)
    (entries : List (String × CVal)) (keys : List String) (mr step : Int)
    (ws now data : Nat) (m : CachePerformanceMetrics) (efail : String) :
    (∃ r, getRemote o k m = Except.ok r) ∧
    (∃ r, setRemote o cfg k v l m = Except.ok r) ∧
    (∃ r, hasRemote o k m = Except.ok r) ∧
    (∃ r, deleteRemote o k m = Except.ok r) ∧
    (∃ r, getOrSetRemote o cfg k g l m = Except.ok r) ∧
    (∃ r, setBatchRemote o cfg entries l m = Except.ok r) ∧
    (∃ r, getBatchRemote o keys m = Except.ok r) ∧
    (∃ r, rateLimitRemote o cfg k mr ws now m = Except.ok r) ∧
    (∃ r, getTTLRemote o k m = Except.ok r) ∧
    (∃ r, setTTLRemote o k ws m = Except.ok r) ∧
    (∃ r, clearRemote o m = Except.ok r) ∧
    (∃ r, createSessionRemote o cfg sid uid data l now m = Except.ok r) ∧
    (∃ r, getSessionRemote o cfg sid now m = Except.ok r) ∧
    (∃ r, deleteSessionRemote o sid m = Except.ok r) ∧
    (o.incrR k = .error efail → incrementRemote o k 1 m = .error efail) ∧
    (step ≠ 1 → o.incrByR k step = .error efail →
      incrementRemote o k step m = .error efail) :=
  ⟨getRemote_ok o k m,
   setRemote_ok o cfg k v l m,
   hasRemote_ok o k m,
   deleteRemote_ok o k m,
   getOrSetRemote_ok o cfg k g l m,
   setBatchRemote_ok o cfg entries l m,
   getBatchRemote_ok o keys m,
   rateLimitRemote_ok o cfg k mr ws now m,
   getTTLRemote_ok o k m,
   setTTLRemote_ok o k ws m,
   clearRemote_ok o m,
   setRemote_ok o cfg (sessionKey sid) _ _ m,
   getSessionRemote_ok o cfg sid now m,
   deleteRemote_ok o (sessionKey sid) m,
   fun h => by simp [incrementRemote, h],
   fun hs h => by simp [incrementRemote, hs, h]⟩

/-- Witness for C4 with the all-failing oracle: `get` still returns a
normal (ok) result, while `increment` propagates the error. -/
theorem engine_public_ops_total_witness :
    (∃ r, getRemote failOracle "k" ⟨0, 0, 0, 0, 0, 0⟩ = Except.ok r) ∧
    incrementRemote failOracle "k" 1 ⟨0, 0, 0, 0, 0, 0⟩ =
      .error "boom" ∧
    incrementRemote failOracle "k" 2 ⟨0, 0, 0, 0, 0, 0⟩ =
      .error "boom" := by
  obtain ⟨h1, _, _, _, _, _, _, _, _, _, _, _, _, _, h15, h16⟩ :=
    engine_public_ops_total failOracle ⟨3600, 10000⟩ "k" "sid" "uid"
      (CVal.raw 0) (CVal.raw 0) none [] [] 3 2 60 60000 0
      ⟨0, 0, 0, 0, 0, 0⟩ "boom"
  exact ⟨h1, h15 rfl, h16 (by decide) rfl⟩

/-- C2: `rateLimit` computes the fixed-window index and counter key,
increments that counter, writes the window TTL exactly when this call
created the window (`requestCount = 1`; otherwise the expiration is the
one `increment`'s default write produced), and returns
`permitted = (requestCount ≤ maxRequests)`,
`quota = max 0 (maxRequests - requestCount)` and
`windowReset = (windowIndex + 1) * windowSeconds * 1000`; four calls
with `maxRequests = 3` inside one window return permitted
true,true,true,false with requestCount 1,2,3,4; and when the underlying
increment raises, the remote-path catch fails open with
`permitted = true` and `requestCount = 1`. -/
theorem rateLimit_fixed_window (s : EngineState) (key : String) (mr : Int)
    (ws now : Nat) (hws : 0 < ws) (o : RemoteOracle)
    (m : CachePerformanceMetrics) (efail : String) :
    (rateLimitLocal key mr ws now s).1.requestCount =
      localCurrentVal s.store (trafficKey key ws now) now + 1 ∧
    (rateLimitLocal key mr ws now s).1.permitted =
      decide ((rateLimitLocal key mr ws now s).1.requestCount ≤ mr) ∧
    (rateLimitLocal key mr ws now s).1.quota =
      max 0 (mr - (rateLimitLocal key mr ws now s).1.requestCount) ∧
    (rateLimitLocal key mr ws now s).1.windowReset =
      (windowIndex ws now + 1) * ws * 1000 ∧
    (∃ e, mapGet (rateLimitLocal key mr ws now s).2.store
        (trafficKey key ws now) = some e ∧
      e.value = CVal.num ((rateLimitLocal key mr ws now s).1.requestCount) ∧
      ((rateLimitLocal key mr ws now s).1.requestCount = 1 →
        e.expiration = some (now + ws * 1000)) ∧
      ((rateLimitLocal key mr ws now s).1.requestCount ≠ 1 →
        e.expiration = computeExpiration s.config none now)) ∧
    (o.incrR (trafficKey key ws now) = .error efail →
      rateLimitRemote o s.config key mr ws now m =
        .ok (⟨true, mr - 1, now + ws * 1000, 1⟩, m)) ∧
    (let s0 : EngineState := ⟨[], ⟨0, 0, 0, 0, 0, 0⟩, ⟨3600, 10000⟩⟩
     let r1 := rateLimitLocal "api" 3 60 60000 s0
     let r2 := rateLimitLocal "api" 3 60 60010 r1.2
     let r3 := rateLimitLocal "api" 3 60 60020 r2.2
     let r4 := rateLimitLocal "api" 3 60 60030 r3.2
     (r1.1.permitted = true ∧ r1.1.requestCount = 1) ∧
     (r2.1.permitted = true ∧ r2.1.requestCount = 2) ∧
     (r3.1.permitted = true ∧ r3.1.requestCount = 3) ∧
     (r4.1.permitted = false ∧ r4.1.requestCount = 4)) := by
  refine ⟨rfl, rfl, rfl, rfl, ?_, ?_, ?_⟩
  · have hstate : (rateLimitLocal key mr ws now s).2 =
        (if localCurrentVal s.store (trafficKey key ws now) now + 1 = 1 then
          (setLocal (trafficKey key ws now)
            (CVal.num (localCurrentVal s.store (trafficKey key ws now) now + 1))
            (some ws) now
            (setLocal (trafficKey key ws now)
              (CVal.num (localCurrentVal s.store (trafficKey key ws now) now + 1))
              none now s).2).2
        else
          (setLocal (trafficKey key ws now)
            (CVal.num (localCurrentVal s.store (trafficKey key ws now) now + 1))
            none now s).2) := rfl
    have hrc : (rateLimitLocal key mr ws now s).1.requestCount =
        localCurrentVal s.store (trafficKey key ws now) now + 1 := rfl
    rw [hstate, hrc]
    by_cases h1 : localCurrentVal s.store (trafficKey key ws now) now + 1 = 1
    · rw [if_pos h1]
      refine ⟨⟨CVal.num (localCurrentVal s.store (trafficKey key ws now) now + 1),
          some (now + ws * 1000), now⟩, ?_, rfl, fun _ => rfl,
          fun hne => absurd h1 hne⟩
      simp only [setLocal, computeExpiration]
      exact mapGet_mapSet_self _ _ _
    · rw [if_neg h1]
      refine ⟨⟨CVal.num (localCurrentVal s.store (trafficKey key ws now) now + 1),
          computeExpiration s.config none now, now⟩, ?_, rfl,
          fun h => absurd h h1, fun _ => rfl⟩
      simp only [setLocal]
      exact mapGet_mapSet_self _ _ _
  · intro h
    simp [rateLimitRemote, incrementRemote, h]
  · decide

/-- Witness for C2 at a concrete input: local state empty, key `"api"`,
`maxRequests = 3`, window 60 s, clock 60000, and an oracle whose
increment always raises. -/
theorem rateLimit_fixed_window_witness :
    (rateLimitLocal "api" 3 60 60000
        ⟨[], ⟨0, 0, 0, 0, 0, 0⟩, ⟨3600, 10000⟩⟩).1.requestCount =
      localCurrentVal [] (trafficKey "api" 60 60000) 60000 + 1 ∧
    rateLimitRemote failOracle ⟨3600, 10000⟩ "api" 3 60 60000
        ⟨0, 0, 0, 0, 0, 0⟩ =
      .ok (⟨true, 3 - 1, 60000 + 60 * 1000, 1⟩, ⟨0, 0, 0, 0, 0, 0⟩) := by
  have h := rateLimit_fixed_window ⟨[], ⟨0, 0, 0, 0, 0, 0⟩, ⟨3600, 10000⟩⟩
    "api" 3 60 60000 (by decide) failOracle ⟨0, 0, 0, 0, 0, 0⟩ "boom"
  exact ⟨h.1, h.2.2.2.2.2.1 rfl⟩

/-- C5 counterexample: the claim says `acquireLock` stores its token at
key `lock:<lockKey>`.  In the source (cache.ts lines 635-650) the token
is written under `lockKey` itself, with no prefix: acquiring `"job"` on
an empty store leaves nothing at `"lock:job"` and the token at
`"job"`. -/
theorem acquireLock_uses_unprefixed_key :
    let r := acquireLockLoop "job" "tok" 30 10000 5000 5 5000
      ⟨[], ⟨0, 0, 0, 0, 0, 0⟩, ⟨3600, 10000⟩⟩
    r.1 = true ∧
    mapGet r.2.store "lock:job" = none ∧
    mapGet r.2.store "job" =
      some ⟨CVal.str "tok", some (5000 + 30 * 1000), 5000⟩ := by
  refine ⟨rfl, by decide, rfl⟩

/-- C5 amended: `acquireLock` stores its token at the raw `lockKey`
(no prefix) with TTL equal to the lease duration, and `releaseLock`
takes no token and unconditionally deletes the lock key — it is exactly
`delete`, succeeding for any holder — so any caller can release a lock
it does not hold. -/
theorem acquireLock_token_and_release (s : EngineState)
    (lockKey token : String) (duration timeout startTime now fuel : Nat)
    (hin : now - startTime < timeout)
    (hfree : optTruthy (getLocal lockKey now s).1 = false) :
    acquireLockLoop lockKey token duration timeout startTime (fuel + 1) now s =
      (true,
        (setLocal lockKey (CVal.str token) (some duration) now
          (getLocal lockKey now s).2).2) ∧
    mapGet (acquireLockLoop lockKey token duration timeout startTime
        (fuel + 1) now s).2.store lockKey =
      some ⟨CVal.str token, some (now + duration * 1000), now⟩ ∧
    (∀ s2 : EngineState, releaseLockLocal lockKey s2 = deleteLocal lockKey s2) ∧
    (releaseLockLocal lockKey s).1 = (mapGet s.store lockKey).isSome ∧
    (WFStore s.store →
      mapGet (releaseLockLocal lockKey s).2.store lockKey = none) := by
  have h1 : acquireLockLoop lockKey token duration timeout startTime
      (fuel + 1) now s =
      (true,
        (setLocal lockKey (CVal.str token) (some duration) now
          (getLocal lockKey now s).2).2) := by
    simp only [acquireLockLoop, if_pos hin, hfree]
    rfl
  refine ⟨h1, ?_, fun _ => rfl, rfl, ?_⟩
  · rw [h1]
    simp only [setLocal, computeExpiration]
    exact mapGet_mapSet_self _ _ _
  · intro hwf
    exact mapGet_mapDelete_self s.store lockKey hwf

/-- Witness for C5's amended theorem: empty store, clock 5000, timeout
10000 — the lock is acquired at the raw key and released by a
token-less delete. -/
theorem acquireLock_token_and_release_witness :
    acquireLockLoop "job" "tok" 30 10000 5000 (4 + 1) 5000
        ⟨[], ⟨0, 0, 0, 0, 0, 0⟩, ⟨3600, 10000⟩⟩ =
      (true,
        (setLocal "job" (CVal.str "tok") (some 30) 5000
          (getLocal "job" 5000
            ⟨[], ⟨0, 0, 0, 0, 0, 0⟩, ⟨3600, 10000⟩⟩).2).2) ∧
    mapGet (acquireLockLoop "job" "tok" 30 10000 5000 (4 + 1) 5000
        ⟨[], ⟨0, 0, 0, 0, 0, 0⟩, ⟨3600, 10000⟩⟩).2.store "job" =
      some ⟨CVal.str "tok", some (5000 + 30 * 1000), 5000⟩ := by
  have h := acquireLock_token_and_release
    ⟨[], ⟨0, 0, 0, 0, 0, 0⟩, ⟨3600, 10000⟩⟩ "job" "tok" 30 10000 5000 5000 4
    (by decide) (by decide)
  exact ⟨h.1, h.2.1⟩

/-- C6 counterexample: the claim says that on a populated, unexpired
key (`has` reports `true`, `get` counts a successful read) `getOrSet`
never invokes the supplier.  When the populated value is the JS `null`,
`get` returns `null`, the `cached !== null` test fails, and the
supplier IS invoked (once). -/
theorem getOrSet_null_value_invokes_supplier :
    let s1 := (setLocal "k" CVal.jnull none 1000
      ⟨[], ⟨0, 0, 0, 0, 0, 0⟩, ⟨3600, 10000⟩⟩).2
    (hasLocal "k" 2000 s1).1 = true ∧
    (getLocal "k" 2000 s1).2.metrics.successful = 1 ∧
    (getOrSetLocal "k" (CVal.raw 7) none 2000 s1).2.2 = 1 := by
  refine ⟨by decide, rfl, by decide⟩

/-- C6 amended: with no concurrent callers, `getOrSet` on an absent key
invokes the supplier exactly once, stores its value, and returns it;
on a populated, unexpired key whose value is not the JS `null` it
returns the cached value and invokes the supplier zero times (a cached
`null` is indistinguishable from a miss and re-invokes the supplier,
as the counterexample shows). -/
theorem getOrSet_supplier_invocations (s : EngineState) (key : String)
    (genVal : CVal) (lifespan : Option Nat) (now : Nat) :
    (mapGet s.store key = none →
      (getOrSetLocal key genVal lifespan now s).1 = jsRet genVal ∧
      (getOrSetLocal key genVal lifespan now s).2.2 = 1 ∧
      mapGet (getOrSetLocal key genVal lifespan now s).2.1.store key =
        some ⟨genVal, computeExpiration s.config lifespan now, now⟩) ∧
    (∀ e : InMemoryCacheEntry, mapGet s.store key = some e →
      entryExpiredTruthy e now = false → e.value ≠ CVal.jnull →
      (getOrSetLocal key genVal lifespan now s).1 = some e.value ∧
      (getOrSetLocal key genVal lifespan now s).2.2 = 0) := by
  constructor
  · intro h
    have hg : getLocal key now s =
        (none, { s with metrics :=
          { s.metrics with failed := s.metrics.failed + 1 } }) := by
      simp only [getLocal, h]
    refine ⟨?_, ?_, ?_⟩
    · simp only [getOrSetLocal, hg]
    · simp only [getOrSetLocal, hg]
    · simp only [getOrSetLocal, hg, setLocal]
      exact mapGet_mapSet_self _ _ _
  · intro e he hlive hnn
    have hjs : jsRet e.value = some e.value := by
      simp [jsRet, hnn]
    have hg : getLocal key now s =
        (some e.value,
          { s with store := mapSet s.store key { e with lastAccessed := now },
                   metrics :=
                     { s.metrics with
                       successful := s.metrics.successful + 1 } }) := by
      simp only [getLocal, he, hlive, Bool.false_eq_true, if_false, hjs]
    exact ⟨by simp only [getOrSetLocal, hg], by simp only [getOrSetLocal, hg]⟩

/-- Witness for C6's amended theorem: a miss on key `"j"` invokes the
supplier once; a non-null hit on key `"k"` invokes it zero times. -/
theorem getOrSet_supplier_invocations_witness :
    let s : EngineState :=
      ⟨[("k", ⟨CVal.raw 5, some 3601000, 1000⟩)], ⟨0, 0, 0, 0, 0, 0⟩,
        ⟨3600, 10000⟩⟩
    ((getOrSetLocal "j" (CVal.raw 9) none 2000 s).2.2 = 1) ∧
    ((getOrSetLocal "k" (CVal.raw 9) none 2000 s).1 =
      some (CVal.raw 5) ∧
     (getOrSetLocal "k" (CVal.raw 9) none 2000 s).2.2 = 0) := by
  have hmiss := (getOrSet_supplier_invocations
    ⟨[("k", ⟨CVal.raw 5, some 3601000, 1000⟩)], ⟨0, 0, 0, 0, 0, 0⟩,
      ⟨3600, 10000⟩⟩ "j" (CVal.raw 9) none 2000).1 (by decide)
  have hhit := (getOrSet_supplier_invocations
    ⟨[("k", ⟨CVal.raw 5, some 3601000, 1000⟩)], ⟨0, 0, 0, 0, 0, 0⟩,
      ⟨3600, 10000⟩⟩ "k" (CVal.raw 9) none 2000).2
    ⟨CVal.raw 5, some 3601000, 1000⟩ (by decide) (by decide) (by decide)
  exact ⟨hmiss.2.1, hhit⟩

/-- C7 counterexample: on the remote tier, deleting an absent key (the
`DEL` reply is `0`) still increments `removals` while `delete` returns
`false`, so `removals` is NOT incremented exactly when `delete` returns
`true`. -/
theorem deleteRemote_removals_without_removal :
    deleteRemote okOracle "k" ⟨0, 0, 0, 0, 0, 0⟩ =
      Except.ok (false, ⟨0, 0, 0, 1, 0, 0⟩) := rfl

/-- C7 amended: on the local tier `delete` increments `removals` if and
only if it returns `true`; on the remote tier `removals` is incremented
whenever the remote `DEL` call succeeds — regardless of whether an
entry was removed, so possibly alongside a `false` result — and not at
all when the call raises (the catch returns `false`). -/
theorem delete_removals_accounting (s : EngineState) (key : String)
    (o : RemoteOracle) (m : CachePerformanceMetrics) (n : Nat)
    (efail : String) :
    ((deleteLocal key s).2.metrics.removals =
      s.metrics.removals + (if (deleteLocal key s).1 then 1 else 0)) ∧
    (o.delR key = .ok n →
      deleteRemote o key m =
        .ok (decide (n > 0), { m with removals := m.removals + 1 })) ∧
    (o.delR key = .error efail →
      deleteRemote o key m = .ok (false, m)) := by
  refine ⟨?_, ?_, ?_⟩
  · by_cases h : (mapGet s.store key).isSome
    · simp [deleteLocal, h]
    · simp [deleteLocal, h]
  · intro h
    simp only [deleteRemote, h]
  · intro h
    simp only [deleteRemote, h]

/-- Witness for C7's amended theorem: a successful `DEL` replying `0`
increments `removals` and returns `false`; a failing `DEL` leaves
`removals` alone and returns `false`. -/
theorem delete_removals_accounting_witness :
    deleteRemote okOracle "k" ⟨0, 0, 0, 0, 0, 0⟩ =
      .ok (decide ((0 : Nat) > 0),
        { (⟨0, 0, 0, 0, 0, 0⟩ : CachePerformanceMetrics) with
          removals := 0 + 1 }) ∧
    deleteRemote failOracle "k" ⟨0, 0, 0, 0, 0, 0⟩ =
      .ok (false, ⟨0, 0, 0, 0, 0, 0⟩) := by
  have h1 := (delete_removals_accounting
    ⟨[], ⟨0, 0, 0, 0, 0, 0⟩, ⟨3600, 10000⟩⟩ "k" okOracle
    ⟨0, 0, 0, 0, 0, 0⟩ 0 "boom").2.1 rfl
  have h2 := (delete_removals_accounting
    ⟨[], ⟨0, 0, 0, 0, 0, 0⟩, ⟨3600, 10000⟩⟩ "k" failOracle
    ⟨0, 0, 0, 0, 0, 0⟩ 0 "boom").2.2 rfl
  exact ⟨h1, h2⟩

/-- C9: starting from an empty local engine with the default
configuration (`entryLifespan = 3600`), `createSession` with no
explicit lifespan stores the session with expiration
`t0 + 86400 * 1000`; a later `getSession` that hits returns the session
with `lastActive` updated to the read time `t1` and persists it through
`set` with NO lifespan argument, so the stored entry's expiration is
recomputed from the default `entryLifespan` as `t1 + 3600 * 1000` — not
from the 86400-second lifespan the session was created with. -/
theorem getSession_rewrites_expiration (sid uid : String) (data t0 t1 : Nat)
    (hun : t1 ≤ t0 + 86400 * 1000) :
    let s0 : EngineState := ⟨[], ⟨0, 0, 0, 0, 0, 0⟩, ⟨3600, 10000⟩⟩
    let s1 := (createSessionLocal sid uid data none t0 s0).2
    let g := getSessionLocal sid t1 s1
    mapGet s1.store (sessionKey sid) =
      some ⟨CVal.sess ⟨uid, data, t0, t0⟩, some (t0 + 86400 * 1000), t0⟩ ∧
    g.1 = some ⟨uid, data, t0, t1⟩ ∧
    mapGet g.2.store (sessionKey sid) =
      some ⟨CVal.sess ⟨uid, data, t0, t1⟩, some (t1 + 3600 * 1000), t1⟩ := by
  intro s0 s1 g
  have hs1 : s1 =
      ⟨[(sessionKey sid,
          ⟨CVal.sess ⟨uid, data, t0, t0⟩, some (t0 + 86400 * 1000), t0⟩)],
        ⟨0, 0, 1, 0, 0, 0⟩, ⟨3600, 10000⟩⟩ := rfl
  have hmap1 : mapGet s1.store (sessionKey sid) =
      some ⟨CVal.sess ⟨uid, data, t0, t0⟩, some (t0 + 86400 * 1000), t0⟩ := by
    rw [hs1]; simp [mapGet]
  have hexp : entryExpiredTruthy
      ⟨CVal.sess ⟨uid, data, t0, t0⟩, some (t0 + 86400 * 1000), t0⟩ t1 =
      false := by
    simp only [entryExpiredTruthy, decide_eq_false_iff_not]
    intro hcon
    omega
  have hget : getLocal (sessionKey sid) t1 s1 =
      (some (CVal.sess ⟨uid, data, t0, t0⟩),
        ⟨[(sessionKey sid,
            ⟨CVal.sess ⟨uid, data, t0, t0⟩, some (t0 + 86400 * 1000), t1⟩)],
          ⟨1, 0, 1, 0, 0, 0⟩, ⟨3600, 10000⟩⟩) := by
    rw [hs1] at hmap1 ⊢
    simp [getLocal, hmap1, hexp, jsRet, mapSet]
  have hg : g = (some ⟨uid, data, t0, t1⟩,
      (setLocal (sessionKey sid) (CVal.sess ⟨uid, data, t0, t1⟩) none t1
        ⟨[(sessionKey sid,
            ⟨CVal.sess ⟨uid, data, t0, t0⟩, some (t0 + 86400 * 1000), t1⟩)],
          ⟨1, 0, 1, 0, 0, 0⟩, ⟨3600, 10000⟩⟩).2) := by
    simp only [g, getSessionLocal, hget]
  refine ⟨hmap1, by rw [hg], ?_⟩
  rw [hg]
  have hs2 : (setLocal (sessionKey sid) (CVal.sess ⟨uid, data, t0, t1⟩) none t1
      ⟨[(sessionKey sid,
          ⟨CVal.sess ⟨uid, data, t0, t0⟩, some (t0 + 86400 * 1000), t1⟩)],
        ⟨1, 0, 1, 0, 0, 0⟩, ⟨3600, 10000⟩⟩).2.store =
      mapSet [(sessionKey sid,
          ⟨CVal.sess ⟨uid, data, t0, t0⟩, some (t0 + 86400 * 1000), t1⟩)]
        (sessionKey sid)
        ⟨CVal.sess ⟨uid, data, t0, t1⟩, some (t1 + 3600 * 1000), t1⟩ := rfl
  rw [hs2]
  exact mapGet_mapSet_self _ _ _

/-- Witness for C9: session created at `t0 = 1000` and read at
`t1 = 500000`; the persisted expiration is `500000 + 3600 * 1000`. -/
theorem getSession_rewrites_expiration_witness :
    let s0 : EngineState := ⟨[], ⟨0, 0, 0, 0, 0, 0⟩, ⟨3600, 10000⟩⟩
    let s1 := (createSessionLocal "sid" "uid" 7 none 1000 s0).2
    let g := getSessionLocal "sid" 500000 s1
    g.1 = some ⟨"uid", 7, 1000, 500000⟩ ∧
    mapGet g.2.store (sessionKey "sid") =
      some ⟨CVal.sess ⟨"uid", 7, 1000, 500000⟩, some (500000 + 3600 * 1000),
        500000⟩ := by
  have h := getSession_rewrites_expiration "sid" "uid" 7 1000 500000
    (by decide)
  exact ⟨h.2.1, h.2.2⟩

/-- Witness for C10 at a concrete input: expiration 100, clock 200. -/
theorem getTTL_expired_entry_returns_zero_witness :
    let s : EngineState :=
      ⟨[("k", ⟨CVal.raw 5, some 100, 50⟩)], ⟨0, 0, 0, 0, 0, 0⟩, ⟨3600, 10000⟩⟩
    getTTLLocal "k" 200 s = 0 ∧
    getTTLLocal "k" 200 s ≠ -2 ∧
    (getLocal "k" 200 s).1 = none ∧
    mapGet (getLocal "k" 200 s).2.store "k" = none ∧
    (hasLocal "k" 200 s).1 = false :=
  getTTL_expired_entry_returns_zero
    ⟨[("k", ⟨CVal.raw 5, some 100, 50⟩)], ⟨0, 0, 0, 0, 0, 0⟩, ⟨3600, 10000⟩⟩
    "k" ⟨CVal.raw 5, some 100, 50⟩ 100 200 (by decide) rfl rfl
    (by decide) (by decide)

end CacheModel
